import Mathlib

/-!
Shallow embedding of `src/app.py` (Summize: AI paper analyzer).

The app uploads a PDF, extracts its text and embedded images (PyMuPDF),
and dispatches one summary job plus one vision job per image to a
thread pool (Gemini clients).  External collaborators (PyMuPDF parsing,
PIL image decoding, the Gemini API, Streamlit's rendering) are modelled
as function parameters; everything the repository's own code does —
extraction loops, caching, the session-state handlers, the concurrent
collection loop, the gallery zip — is embedded directly.
-/

namespace Summize

/-- Raw byte strings (PDF bytes, image bytes). -/
abbrev Bytes := List Nat

/-- One embedded image reference on a PDF page, as returned by
`page.get_images(full=True)`: its xref plus the outcome of
`doc.extract_image(xref)` — `some bytes` when extraction succeeds,
`none` when it raises (the `except` branch at app.py:104). -/
structure ImageRef where
  xref : Nat
  decoded : Option Bytes
deriving Repr, DecidableEq

/-- One parsed PDF page: its `get_text()` result and its listed image
references in order. -/
structure Page where
  text : String
  images : List ImageRef
deriving Repr, DecidableEq

/-- A parsed PDF document (`fitz.open` result): pages in order. -/
structure PDFDoc where
  pages : List Page
deriving Repr, DecidableEq

/-- One uploaded file as stored in `st.session_state['uploaded_files']`:
its Streamlit `file_id` and its `getvalue()` bytes. -/
structure UploadedFile where
  file_id : Nat
  bytes : Bytes
deriving Repr, DecidableEq

/-- A decoded in-memory image (`PIL.Image.open` result). -/
structure PILImage where
  data : Bytes
deriving Repr, DecidableEq

/-! Gemini clients (app.py:33-68). -/

/-- Model of `get_gemini_summary` (app.py:33-50): calls `generate_content` on the
full text; the whole call sits inside `try`, so any API failure is
returned as the error string `"텍스트 요약 중 오류 발생: ..."` rather than
raised.  The remote call is the parameter `generate_content`
(`Except.error e` models a raised exception carrying message `e`). -/
def get_gemini_summary (generate_content : String → Except String String)
    (full_text : String) : String :=
  match generate_content full_text with
  | .ok t => t
  | .error e => "텍스트 요약 중 오류 발생: " ++ toString e

/-- Model of `get_gemini_vision_analysis` (app.py:52-68).  Faithful to the source:
`img = Image.open(io.BytesIO(image_bytes))` at app.py:56 is executed
*outside* the `try` block, so a decode failure propagates as an
exception (modelled as `Except.error`); only the `generate_content`
call at app.py:65 is guarded, and its failure is returned as the error
string (modelled as a normal `Except.ok` return). -/
def get_gemini_vision_analysis (image_open : Bytes → Except String PILImage)
    (generate_content : PILImage → Except String String)
    (image_bytes : Bytes) : Except String String :=
  match image_open image_bytes with
  | .error e => .error e
  | .ok img =>
      match generate_content img with
      | .ok t => .ok t
      | .error e => .ok ("이미지 분석 중 오류 발생: " ++ toString e)

/-! Extraction (app.py:76-108). -/

/-- Errors an extraction call can raise: a `KeyError` when the file id is
not in the session map (app.py:80), or PyMuPDF's `FileDataError` when
`fitz.open` cannot parse the bytes (app.py:83) — the spec's
`MalformedDocument` class. -/
inductive ExtractError where
  | keyError (file_id : Nat)
  | malformedDocument
deriving Repr, DecidableEq

/-- The inner loop of `extract_images_from_pdf` (app.py:98-106) over one
page's image references: append the extracted bytes, skip a reference
whose `doc.extract_image` raises. -/
def extractPageImages : List ImageRef → List Bytes
  | [] => []
  | r :: rs =>
      match r.decoded with
      | some b => b :: extractPageImages rs
      | none => extractPageImages rs

/-- The page loop of `extract_images_from_pdf` (app.py:96-107):
`image_list` accumulates across pages in page order. -/
def extractDocImages (doc : PDFDoc) : List Bytes :=
  doc.pages.foldl (fun image_list page => image_list ++ extractPageImages page.images) []

/-- All image references of a document in listed order (pages
top-to-bottom, in-page order): the "original image count" baseline. -/
def docImageRefs (doc : PDFDoc) : List ImageRef :=
  (doc.pages.map Page.images).flatten

/-- Model of `extract_text_from_pdf` (app.py:76-86): looks the file up in
`st.session_state['uploaded_files']` by `file_id`, parses the bytes
(`fitz_open`, `none` = unparseable PDF, raising `FileDataError`), and
joins the per-page `get_text()` results with no separator. -/
def extract_text_from_pdf (fitz_open : Bytes → Option PDFDoc)
    (uploaded_files : List (Nat × UploadedFile)) (file_id : Nat) :
    Except ExtractError String :=
  match uploaded_files.lookup file_id with
  | none => .error (.keyError file_id)
  | some pdf_file =>
      match fitz_open pdf_file.bytes with
      | none => .error .malformedDocument
      | some doc => .ok (String.join (doc.pages.map Page.text))

/-- Model of `extract_images_from_pdf` (app.py:88-108): same lookup and parse,
then the nested extraction loop. -/
def extract_images_from_pdf (fitz_open : Bytes → Option PDFDoc)
    (uploaded_files : List (Nat × UploadedFile)) (file_id : Nat) :
    Except ExtractError (List Bytes) :=
  match uploaded_files.lookup file_id with
  | none => .error (.keyError file_id)
  | some pdf_file =>
      match fitz_open pdf_file.bytes with
      | none => .error .malformedDocument
      | some doc => .ok (extractDocImages doc)

/-- Model of the `@st.cache_data` decorator (app.py:76, 88): memoizes a function on its
`file_id` argument.  A cached value is returned without re-running the
function; on a miss the function runs, and only a *normal return* is
stored — a raised exception (`Except.error`) propagates and nothing is
cached. -/
def cache_data {α : Type} (f : Nat → Except ExtractError α)
    (cache : List (Nat × α)) (key : Nat) :
    List (Nat × α) × Except ExtractError α :=
  match cache.lookup key with
  | some v => (cache, .ok v)
  | none =>
      match f key with
      | .ok v => ((key, v) :: cache, .ok v)
      | .error e => (cache, .error e)

/-- The extraction call site inside the spinner (app.py:140-143): run the
cached text extraction, then the cached image extraction.  There is no
`try`/`except` here, so a raised `ExtractError` propagates out of the
script run (Streamlit then renders the exception to the user); the
image extraction only runs when the text extraction returned normally.
The pair of caches is threaded explicitly. -/
def run_extraction (fitz_open : Bytes → Option PDFDoc)
    (textCache : List (Nat × String)) (imageCache : List (Nat × List Bytes))
    (files : List (Nat × UploadedFile)) (file_id : Nat) :
    List (Nat × String) × List (Nat × List Bytes)
      × Except ExtractError (String × List Bytes) :=
  match cache_data (extract_text_from_pdf fitz_open files) textCache file_id with
  | (tc, .error e) => (tc, imageCache, .error e)
  | (tc, .ok extracted_text) =>
      match cache_data (extract_images_from_pdf fitz_open files) imageCache file_id with
      | (ic, .error e) => (tc, ic, .error e)
      | (ic, .ok extracted_images) => (tc, ic, .ok (extracted_text, extracted_images))

/-! Concurrent dispatch (app.py:151-174).

`future_images = {executor.submit(get_gemini_vision_analysis, img): i
for i, img in enumerate(extracted_images)}` creates one job per image,
tagged with its submission index.  The collection loop walks
`as_completed(future_images)` — the jobs in an arbitrary *completion
order* — and writes each result into `image_results[index]`.
`future.result()` re-raises an exception that escaped the job, which
the `except` branch (app.py:168-169) converts to an error string in the
same slot.  A completion order is modelled as a list of
(submission index, image bytes) jobs; correct schedules are exactly the
permutations of `extracted_images.enum`. -/

/-- The error string the collection loop stores when `future.result()`
re-raises (app.py:169). -/
def visionCollectError (e : String) : String :=
  "이미지 분석 중 오류 발생: " ++ toString e

/-- The value that ends up in an image's slot: the job's normal return
when it has one, otherwise the collection loop's error string. -/
def slotValue (client : Bytes → Except String String) (img_bytes : Bytes) : String :=
  match client img_bytes with
  | .ok s => s
  | .error e => visionCollectError e

/-- One iteration of the collection loop (app.py:164-169): write the
completed job's result — or the error string, when the job raised —
into `image_results[index]`. -/
def collectStep (client : Bytes → Except String String)
    (image_results : List (Option String)) (job : Nat × Bytes) :
    List (Option String) :=
  match client job.2 with
  | .ok s => image_results.set job.1 (some s)
  | .error e => image_results.set job.1 (some (visionCollectError e))

/-- The whole collection loop: start from `[None] * n` (app.py:163) and
fold the completed jobs in completion order. -/
def collect_image_results (client : Bytes → Except String String)
    (n : Nat) (completed : List (Nat × Bytes)) : List (Option String) :=
  completed.foldl (collectStep client) (List.replicate n none)

/-- The body of the analyze button's `with ThreadPoolExecutor` block
(app.py:154-169): one summary job plus the image jobs; returns
`(summary_result, image_results)`. -/
def dispatch_analysis (summary_client : String → String)
    (vision_client : Bytes → Except String String)
    (extracted_text : String) (extracted_images : List Bytes)
    (completed : List (Nat × Bytes)) : String × List (Option String) :=
  (summary_client extracted_text,
   collect_image_results vision_client extracted_images.length completed)

/-! Session state and handlers (app.py:118-175). -/

/-- Model of `st.session_state['analysis_results']`: either the empty dict `{}`
(falsy, so the result panels are not rendered) or the dict
`{'summary': ..., 'images': ...}` written at app.py:171-174. -/
inductive AnalysisResults where
  | empty
  | results (summary : String) (images : List (Option String))
deriving Repr, DecidableEq

/-- The session state the app keeps (app.py:118-124): the
`file_id → UploadedFile` map, the analysis-results dict, and the
current `file_id` pointer. -/
structure SessionState where
  uploaded_files : List (Nat × UploadedFile)
  analysis_results : AnalysisResults
  file_id : Option Nat
deriving Repr, DecidableEq

/-- Initial session state (app.py:119-124). -/
def initialState : SessionState := ⟨[], .empty, none⟩

/-- The upload branch (app.py:128-137): record the current `file_id`;
only when the id is *not* already a key of `uploaded_files` store the
file and reset `analysis_results` to `{}`. -/
def handle_upload (s : SessionState) (uploaded_file : UploadedFile) :
    SessionState :=
  let fid := uploaded_file.file_id
  if (s.uploaded_files.lookup fid).isSome then
    { s with file_id := some fid }
  else
    { s with file_id := some fid,
             uploaded_files := s.uploaded_files ++ [(fid, uploaded_file)],
             analysis_results := .empty }

/-- The analyze button handler (app.py:147-174): clear
`analysis_results` (app.py:149), run the dispatch, then store
`{'summary': summary_result, 'images': image_results}`. -/
def handle_analyze (s : SessionState) (summary_client : String → String)
    (vision_client : Bytes → Except String String)
    (extracted_text : String) (extracted_images : List Bytes)
    (completed : List (Nat × Bytes)) : SessionState :=
  let s1 := { s with analysis_results := AnalysisResults.empty }
  let r := dispatch_analysis summary_client vision_client
      extracted_text extracted_images completed
  { s1 with analysis_results := .results r.1 r.2 }

/-- A user-visible event that mutates the session state: a file upload,
or a click of the analyze button (carrying the external clients, the
extraction results in scope at that rerun, and the completion order the
thread pool happened to produce). -/
inductive Event where
  | upload (f : UploadedFile)
  | analyze (summary_client : String → String)
      (vision_client : Bytes → Except String String)
      (extracted_text : String) (extracted_images : List Bytes)
      (completed : List (Nat × Bytes))

/-- One step of the session: dispatch the event to its handler. -/
def step (s : SessionState) : Event → SessionState
  | .upload f => handle_upload s f
  | .analyze sc vc t imgs comp => handle_analyze s sc vc t imgs comp

/-- Run a session trace from a starting state. -/
def run (s : SessionState) (events : List Event) : SessionState :=
  events.foldl step s

/-! Gallery rendering (app.py:178-203). -/

/-- What the image gallery shows: the count in the header
(app.py:191, always `len(extracted_images)`) and the rendered
entries (app.py:197, `zip(extracted_images, image_analyses)`). -/
structure GalleryView where
  header_count : Nat
  entries : List (Bytes × Option String)
deriving Repr, DecidableEq

/-- The result display (app.py:179-203): nothing is rendered while
`analysis_results` is the falsy `{}`; otherwise the gallery header
reports the full extracted-image count and the gallery body iterates
`zip(extracted_images, image_analyses)`. -/
def render_gallery (extracted_images : List Bytes)
    (res : AnalysisResults) : Option GalleryView :=
  match res with
  | .empty => none
  | .results _ image_analyses =>
      some ⟨extracted_images.length, extracted_images.zip image_analyses⟩

/-! Concrete instantiations of the external collaborators, used to
evaluate the theorems below on closed inputs. -/

/-- A vision client that succeeds on every image. -/
def okClient : Bytes → Except String String := fun _ => .ok "분석 결과"

/-- A vision client that fails exactly on the image whose bytes are
`[9]`, as a remote-service failure for one job of a batch. -/
def oneFailClient : Bytes → Except String String :=
  fun b => if b = [9] then .error "ServiceUnavailable" else .ok "분석 결과"

/-- A summary client that returns a fixed summary. -/
def sumW : String → String := fun _ => "요약"

/-- A PIL decoder that rejects every byte string, the way `Image.open`
raises `UnidentifiedImageError` on undecodable bytes. -/
def pilFail : Bytes → Except String PILImage :=
  fun _ => .error "cannot identify image file"

/-- A PIL decoder that accepts every byte string. -/
def pilOk : Bytes → Except String PILImage := fun b => .ok ⟨b⟩

/-- A `generate_content` stub that succeeds. -/
def genOk : PILImage → Except String String := fun _ => .ok "분석 결과"

/-- A `generate_content` stub that fails, as a remote API error. -/
def genFail : PILImage → Except String String := fun _ => .error "quota exceeded"

/-- Does an `Except`-valued call end in a raised exception (rather than
a normal return)? -/
def raisesException : Except String String → Bool
  | .error _ => true
  | .ok _ => false

/-- A concrete uploaded file A. -/
def fileA : UploadedFile := ⟨1, [65]⟩

/-- A concrete uploaded file B, distinct from A. -/
def fileB : UploadedFile := ⟨2, [66]⟩

/-- A file with a `file_id` different from A's but the same bytes. -/
def fileA2 : UploadedFile := ⟨3, [65]⟩

/-- A concrete one-page document with one decodable embedded image. -/
def docW : PDFDoc := ⟨[⟨"t", [⟨7, some [1]⟩]⟩]⟩

/-- A parser that accepts exactly file A's bytes and rejects everything
else as a malformed PDF. -/
def fitzW : Bytes → Option PDFDoc :=
  fun b => if b = [65] then some docW else none

/-- An analyze-button click while file A is current: the summary client
returns A's summary, the vision client returns A's image analysis, and
the single image job completes. -/
def analyzeA : Event :=
  .analyze (fun _ => "A-summary") (fun _ => .ok "A-image-analysis")
    "textA" [[65]] [(0, [65])]

/-- A session trace: upload B, upload A, analyze (storing A's results),
then upload B again. -/
def c3Trace : List Event :=
  [.upload fileB, .upload fileA, analyzeA, .upload fileB]

/-! Helper lemmas about the extraction loops. -/

/-- The in-page extraction loop keeps exactly the decodable references,
in order. -/
theorem extractPageImages_eq_filterMap (rs : List ImageRef) :
    extractPageImages rs = rs.filterMap ImageRef.decoded := by
  induction rs with
  | nil => rfl
  | cons r rs ih =>
      cases h : r.decoded with
      | some b => simp [extractPageImages, h, List.filterMap_cons, ih]
      | none => simp [extractPageImages, h, List.filterMap_cons, ih]

/-- Unrolling the page loop of `extractDocImages` from any accumulator. -/
theorem extractDocImages_go (pages : List Page) (acc : List Bytes) :
    pages.foldl (fun image_list page => image_list ++ extractPageImages page.images) acc
      = acc ++ ((pages.map Page.images).flatten).filterMap ImageRef.decoded := by
  induction pages generalizing acc with
  | nil => simp
  | cons p ps ih =>
      rw [List.foldl_cons, ih]
      simp [extractPageImages_eq_filterMap, List.filterMap_append, List.append_assoc]

/-- Successes plus failures account for every image reference. -/
theorem length_filterMap_add_failures (rs : List ImageRef) :
    (rs.filterMap ImageRef.decoded).length
      + (rs.filter (fun r => r.decoded.isNone)).length = rs.length := by
  induction rs with
  | nil => rfl
  | cons r rs ih =>
      cases h : r.decoded with
      | some b =>
          simp [List.filterMap_cons, List.filter_cons, h]
          omega
      | none =>
          simp [List.filterMap_cons, List.filter_cons, h]
          omega

/-- C5: image extraction returns exactly the successfully decoded images,
in their listed order over pages (it equals `filterMap` of the in-order
reference list, so a failing reference is skipped while every other
reference keeps its relative position), and its length is the original
reference count minus the number of decode failures — a single decode
failure never aborts the whole extraction. -/
theorem extract_images_skip_failed_refs (doc : PDFDoc) :
    extractDocImages doc = (docImageRefs doc).filterMap ImageRef.decoded ∧
    (extractDocImages doc).length
      = (docImageRefs doc).length
        - ((docImageRefs doc).filter (fun r => r.decoded.isNone)).length := by
  have h : extractDocImages doc = (docImageRefs doc).filterMap ImageRef.decoded := by
    unfold extractDocImages docImageRefs
    simpa using extractDocImages_go doc.pages []
  refine ⟨h, ?_⟩
  rw [h]
  have := length_filterMap_add_failures (docImageRefs doc)
  omega

/-- C4: text and image extraction are deterministic functions of the
stored PDF bytes: any two lookups (any session maps, any file ids) that
yield files with identical bytes produce identical extracted text and
an identical, identically ordered image sequence. -/
theorem extraction_deterministic_in_bytes (fitz_open : Bytes → Option PDFDoc)
    (files1 files2 : List (Nat × UploadedFile)) (id1 id2 : Nat)
    (f1 f2 : UploadedFile)
    (h1 : files1.lookup id1 = some f1) (h2 : files2.lookup id2 = some f2)
    (hb : f1.bytes = f2.bytes) :
    extract_text_from_pdf fitz_open files1 id1
      = extract_text_from_pdf fitz_open files2 id2 ∧
    extract_images_from_pdf fitz_open files1 id1
      = extract_images_from_pdf fitz_open files2 id2 := by
  constructor
  · simp only [extract_text_from_pdf, h1, h2, hb]
  · simp only [extract_images_from_pdf, h1, h2, hb]

/-- Witness for C4 at concrete inputs: two distinct file ids storing the
same bytes extract identically. -/
theorem extraction_deterministic_in_bytes_witness :
    ([(1, fileA)] : List (Nat × UploadedFile)).lookup 1 = some fileA ∧
    ([(3, fileA2)] : List (Nat × UploadedFile)).lookup 3 = some fileA2 ∧
    fileA.bytes = fileA2.bytes ∧
    (extract_text_from_pdf fitzW [(1, fileA)] 1
        = extract_text_from_pdf fitzW [(3, fileA2)] 3 ∧
     extract_images_from_pdf fitzW [(1, fileA)] 1
        = extract_images_from_pdf fitzW [(3, fileA2)] 3) :=
  ⟨rfl, rfl, rfl,
   extraction_deterministic_in_bytes fitzW [(1, fileA)] [(3, fileA2)]
     1 3 fileA fileA2 rfl rfl rfl⟩

/-- C8: on bytes the parser rejects, both extraction functions fail with
the `MalformedDocument`-class error; the call site (which has no
`try`/`except`) propagates that error out of the script run, and
neither cache gains an entry under that file's identifier. -/
theorem malformed_pdf_rejected_and_not_cached (fitz_open : Bytes → Option PDFDoc)
    (files : List (Nat × UploadedFile)) (file_id : Nat) (pdf_file : UploadedFile)
    (textCache : List (Nat × String)) (imageCache : List (Nat × List Bytes))
    (hf : files.lookup file_id = some pdf_file)
    (hbad : fitz_open pdf_file.bytes = none)
    (hct : textCache.lookup file_id = none) :
    extract_text_from_pdf fitz_open files file_id = .error .malformedDocument ∧
    extract_images_from_pdf fitz_open files file_id = .error .malformedDocument ∧
    run_extraction fitz_open textCache imageCache files file_id
      = (textCache, imageCache, .error .malformedDocument) := by
  have ht : extract_text_from_pdf fitz_open files file_id
      = .error .malformedDocument := by
    simp only [extract_text_from_pdf, hf, hbad]
  have hi : extract_images_from_pdf fitz_open files file_id
      = .error .malformedDocument := by
    simp only [extract_images_from_pdf, hf, hbad]
  refine ⟨ht, hi, ?_⟩
  simp only [run_extraction, cache_data, hct, ht]

/-- Witness for C8 at concrete inputs: file B's bytes are rejected by the
parser, extraction errors, and the caches stay empty. -/
theorem malformed_pdf_rejected_and_not_cached_witness :
    ([(2, fileB)] : List (Nat × UploadedFile)).lookup 2 = some fileB ∧
    fitzW fileB.bytes = none ∧
    ([] : List (Nat × String)).lookup 2 = none ∧
    run_extraction fitzW [] [] [(2, fileB)] 2
      = ([], [], .error .malformedDocument) :=
  ⟨rfl, rfl, rfl,
   (malformed_pdf_rejected_and_not_cached fitzW [(2, fileB)] 2 fileB [] []
     rfl rfl rfl).2.2⟩

/-! Helper lemmas about the concurrent collection loop. -/

/-- One collection step always stores the slot value of the completed
job at its submission index. -/
theorem collectStep_eq (client : Bytes → Except String String)
    (acc : List (Option String)) (job : Nat × Bytes) :
    collectStep client acc job = acc.set job.1 (some (slotValue client job.2)) := by
  unfold collectStep slotValue
  cases client job.2 <;> rfl

/-- The collection fold preserves the length of the result list. -/
theorem collect_foldl_length (client : Bytes → Except String String)
    (completed : List (Nat × Bytes)) :
    ∀ acc : List (Option String),
    (completed.foldl (collectStep client) acc).length = acc.length := by
  induction completed with
  | nil => intro acc; rfl
  | cons j rest ih =>
      intro acc
      rw [List.foldl_cons, ih, collectStep_eq, List.length_set]

/-- A slot no completed job was submitted for is left untouched. -/
theorem collect_foldl_of_not_mem (client : Bytes → Except String String)
    (i : Nat) (completed : List (Nat × Bytes)) :
    ∀ acc : List (Option String), (∀ p ∈ completed, p.1 ≠ i) →
    (completed.foldl (collectStep client) acc)[i]? = acc[i]? := by
  induction completed with
  | nil => intro acc _; rfl
  | cons j rest ih =>
      intro acc h
      rw [List.foldl_cons,
        ih _ (fun p hp => h p (List.mem_cons_of_mem _ hp)),
        collectStep_eq, List.getElem?_set_ne (h j (List.mem_cons_self _ _))]

/-- A slot some job was submitted for ends up holding that job's slot
value, provided every completed job at that index carries the same
image (true of any permutation of the submitted jobs). -/
theorem collect_foldl_of_mem (client : Bytes → Except String String)
    (i : Nat) (b : Bytes) (completed : List (Nat × Bytes)) :
    ∀ acc : List (Option String), (i, b) ∈ completed →
    (∀ p ∈ completed, p.1 = i → p.2 = b) → i < acc.length →
    (completed.foldl (collectStep client) acc)[i]?
      = some (some (slotValue client b)) := by
  induction completed with
  | nil => intro acc h _ _; exact absurd h (List.not_mem_nil _)
  | cons j rest ih =>
      intro acc hmem huniq hlen
      rw [List.foldl_cons, collectStep_eq]
      by_cases hrest : ∃ c, (i, c) ∈ rest
      · obtain ⟨c, hc⟩ := hrest
        have hcb : c = b := huniq (i, c) (List.mem_cons_of_mem _ hc) rfl
        subst hcb
        exact ih _ hc (fun p hp => huniq p (List.mem_cons_of_mem _ hp))
          (by rw [List.length_set]; exact hlen)
      · have hj : j = (i, b) := by
          rcases List.mem_cons.mp hmem with h | h
          · exact h.symm
          · exact absurd ⟨b, h⟩ hrest
        subst hj
        rw [collect_foldl_of_not_mem client i rest _ ?notmem]
        · exact List.getElem?_set_eq hlen
        case notmem =>
          intro p hp
          cases p with
          | mk p1 p2 =>
              intro hp1
              subst hp1
              exact hrest ⟨p2, hp⟩

/-- The collection loop reassembles the results in submission order: for
every completion order that is a permutation of the submitted jobs, the
result list is the image list mapped through the per-slot value. -/
theorem collect_perm_eq (client : Bytes → Except String String)
    (images : List Bytes) (completed : List (Nat × Bytes))
    (h : completed.Perm images.enum) :
    collect_image_results client images.length completed
      = images.map (fun b => some (slotValue client b)) := by
  apply List.ext_getElem?
  intro n
  by_cases hn : n < images.length
  · have hb : images[n]? = some (images.get ⟨n, hn⟩) := by
      simp [List.getElem?_eq_getElem hn]
    have hmem : (n, images.get ⟨n, hn⟩) ∈ completed := by
      rw [h.mem_iff, List.mem_enum_iff_getElem?]
      exact hb
    have huniq : ∀ p ∈ completed, p.1 = n → p.2 = images.get ⟨n, hn⟩ := by
      intro p hp hp1
      have := List.mem_enum_iff_getElem?.mp (h.mem_iff.mp hp)
      rw [hp1, hb] at this
      exact (Option.some_injective _ this).symm ▸ rfl
    have hlhs : (collect_image_results client images.length completed)[n]?
        = some (some (slotValue client (images.get ⟨n, hn⟩))) := by
      unfold collect_image_results
      exact collect_foldl_of_mem client n _ completed _ hmem huniq
        (by rw [List.length_replicate]; exact hn)
    rw [hlhs, List.getElem?_map, hb]
    rfl
  · have hlen : (collect_image_results client images.length completed).length
        = images.length := by
      unfold collect_image_results
      rw [collect_foldl_length, List.length_replicate]
    have h1 : (collect_image_results client images.length completed)[n]? = none :=
      List.getElem?_eq_none (by rw [hlen]; omega)
    have h2 : (images.map (fun b => some (slotValue client b)))[n]? = none :=
      List.getElem?_eq_none (by simp; omega)
    rw [h1, h2]

/-- C1: for every image list and every completion order of the submitted
jobs (any permutation of the indexed image jobs), the dispatch returns
the summary plus a result list of length N whose entry `i` is the
analysis of `images[i]` — results are reassembled in submission-index
order, not completion order. -/
theorem dispatch_results_in_submission_order (summary_client : String → String)
    (vision_client : Bytes → Except String String) (extracted_text : String)
    (extracted_images : List Bytes) (completed : List (Nat × Bytes))
    (h : completed.Perm extracted_images.enum) :
    dispatch_analysis summary_client vision_client extracted_text
        extracted_images completed
      = (summary_client extracted_text,
         extracted_images.map (fun b => some (slotValue vision_client b))) := by
  unfold dispatch_analysis
  rw [collect_perm_eq _ _ _ h]

/-- Witness for C1 at concrete inputs: two images whose jobs complete in
reverse order still yield the results in submission order. -/
theorem dispatch_results_in_submission_order_witness :
    ([(1, [20]), (0, [10])] : List (Nat × Bytes)).Perm
        (([[10], [20]] : List Bytes).enum) ∧
    dispatch_analysis sumW okClient "본문" [[10], [20]] [(1, [20]), (0, [10])]
      = (sumW "본문",
         ([[10], [20]] : List Bytes).map (fun b => some (slotValue okClient b))) :=
  ⟨by decide,
   dispatch_results_in_submission_order sumW okClient "본문" [[10], [20]]
     [(1, [20]), (0, [10])] (by decide)⟩

/-- C2: for every completion order that is a permutation of the submitted
jobs, the result list has full length, every index whose vision call
raised holds the collection loop's error string, and every index whose
call returned normally holds its own successful analysis — a failing
sibling never aborts the batch or alters another slot. -/
theorem dispatch_isolates_failures (vision_client : Bytes → Except String String)
    (extracted_images : List Bytes) (completed : List (Nat × Bytes))
    (h : completed.Perm extracted_images.enum) :
    (collect_image_results vision_client extracted_images.length completed).length
      = extracted_images.length ∧
    (∀ i (hi : i < extracted_images.length) (e : String),
       vision_client (extracted_images.get ⟨i, hi⟩) = .error e →
       (collect_image_results vision_client extracted_images.length completed)[i]?
         = some (some (visionCollectError e))) ∧
    (∀ i (hi : i < extracted_images.length) (s : String),
       vision_client (extracted_images.get ⟨i, hi⟩) = .ok s →
       (collect_image_results vision_client extracted_images.length completed)[i]?
         = some (some s)) := by
  rw [collect_perm_eq _ _ _ h]
  refine ⟨by simp, ?_, ?_⟩
  · intro i hi e he
    rw [List.getElem?_map, List.getElem?_eq_getElem hi]
    simp [slotValue, List.get_eq_getElem] at he ⊢
    rw [he]
  · intro i hi s hs
    rw [List.getElem?_map, List.getElem?_eq_getElem hi]
    simp [slotValue, List.get_eq_getElem] at hs ⊢
    rw [hs]

/-- Witness for C2 at concrete inputs: in a three-image batch completing
out of order where exactly the middle job's call fails, the failing
index holds the error string and a sibling index holds its success. -/
theorem dispatch_isolates_failures_witness :
    ([(2, [2]), (0, [1]), (1, [9])] : List (Nat × Bytes)).Perm
        (([[1], [9], [2]] : List Bytes).enum) ∧
    oneFailClient (([[1], [9], [2]] : List Bytes).get ⟨1, by decide⟩)
      = .error "ServiceUnavailable" ∧
    (collect_image_results oneFailClient 3 [(2, [2]), (0, [1]), (1, [9])])[1]?
      = some (some (visionCollectError "ServiceUnavailable")) ∧
    (collect_image_results oneFailClient 3 [(2, [2]), (0, [1]), (1, [9])])[0]?
      = some (some "분석 결과") :=
  ⟨by decide, rfl,
   (dispatch_isolates_failures oneFailClient [[1], [9], [2]]
     [(2, [2]), (0, [1]), (1, [9])] (by decide)).2.1 1 (by decide)
     "ServiceUnavailable" rfl,
   (dispatch_isolates_failures oneFailClient [[1], [9], [2]]
     [(2, [2]), (0, [1]), (1, [9])] (by decide)).2.2 0 (by decide)
     "분석 결과" rfl⟩

/-! Session-state theorems. -/

/-- Counterexample to C3 as stated: after the trace upload B, upload A,
analyze (storing A's summary and image analysis), upload B again, the
current file is B yet `analysis_results` still holds A's results — the
upload handler's reset is guarded by `file_id not in uploaded_files`
(app.py:134), which is false for a file id seen earlier in the session,
so nothing is cleared and A's analysis is displayed under B. -/
theorem reupload_keeps_previous_analysis :
    (run initialState c3Trace).file_id = some fileB.file_id ∧
    (run initialState c3Trace).analysis_results
      = AnalysisResults.results "A-summary" [some "A-image-analysis"] :=
  ⟨rfl, rfl⟩

/-- C3 (amended): uploading a file whose `file_id` is not yet a key of
`uploaded_files` clears the summary and all image-analysis slots; but
uploading a file whose `file_id` was stored earlier in the session
leaves `analysis_results` untouched (while making that file current),
so a previously computed analysis of a different file can remain
displayed under the re-uploaded file's identifier. -/
theorem upload_clears_results_iff_unseen (s : SessionState) (f : UploadedFile) :
    (s.uploaded_files.lookup f.file_id = none →
       (handle_upload s f).analysis_results = .empty) ∧
    (∀ g : UploadedFile, s.uploaded_files.lookup f.file_id = some g →
       (handle_upload s f).analysis_results = s.analysis_results ∧
       (handle_upload s f).file_id = some f.file_id) := by
  constructor
  · intro h
    simp [handle_upload, h]
  · intro g h
    simp [handle_upload, h]

/-- Witness for the amended C3 at concrete inputs: uploading the unseen
file B right after uploading A does clear the results. -/
theorem upload_clears_results_iff_unseen_witness :
    (run initialState [Event.upload fileA]).uploaded_files.lookup fileB.file_id
      = none ∧
    (handle_upload (run initialState [Event.upload fileA]) fileB).analysis_results
      = AnalysisResults.empty :=
  ⟨rfl,
   (upload_clears_results_iff_unseen (run initialState [Event.upload fileA])
     fileB).1 rfl⟩

/-- C7: the analyze handler first clears `analysis_results` and then
stores the freshly dispatched summary and image results; the stored
value is exactly the fresh dispatch output, and it is the same whatever
value (prior `Done` result, prior error, or nothing) the slot held
before the click. -/
theorem analyze_overwrites_previous_results (s : SessionState)
    (summary_client : String → String)
    (vision_client : Bytes → Except String String) (extracted_text : String)
    (extracted_images : List Bytes) (completed : List (Nat × Bytes)) :
    (handle_analyze s summary_client vision_client extracted_text
        extracted_images completed).analysis_results
      = .results
          (dispatch_analysis summary_client vision_client extracted_text
            extracted_images completed).1
          (dispatch_analysis summary_client vision_client extracted_text
            extracted_images completed).2 ∧
    (∀ prior : AnalysisResults,
       handle_analyze { s with analysis_results := prior } summary_client
           vision_client extracted_text extracted_images completed
         = handle_analyze s summary_client vision_client extracted_text
             extracted_images completed) :=
  ⟨rfl, fun _ => rfl⟩

/-! Helper lemmas for the `uploaded_files` invariant. -/

/-- The upload handler never rebinds an existing key of
`uploaded_files`. -/
theorem handle_upload_preserves_lookup (s : SessionState) (f : UploadedFile)
    (fid : Nat) (g : UploadedFile)
    (h : s.uploaded_files.lookup fid = some g) :
    (handle_upload s f).uploaded_files.lookup fid = some g := by
  unfold handle_upload
  by_cases hf : (s.uploaded_files.lookup f.file_id).isSome
  · simp [hf, h]
  · simp [hf]
    rw [List.lookup_append, h]
    rfl

/-- No session event rebinds an existing key of `uploaded_files`. -/
theorem step_preserves_lookup (s : SessionState) (e : Event) (fid : Nat)
    (g : UploadedFile) (h : s.uploaded_files.lookup fid = some g) :
    (step s e).uploaded_files.lookup fid = some g := by
  cases e with
  | upload f => exact handle_upload_preserves_lookup s f fid g h
  | analyze sc vc t imgs comp => exact h

/-- Running any further trace preserves an existing binding of
`uploaded_files`. -/
theorem run_preserves_lookup (events : List Event) :
    ∀ (s : SessionState) (fid : Nat) (g : UploadedFile),
    s.uploaded_files.lookup fid = some g →
    (run s events).uploaded_files.lookup fid = some g := by
  induction events with
  | nil => intro s fid g h; exact h
  | cons e rest ih =>
      intro s fid g h
      exact ih _ fid g (step_preserves_lookup s e fid g h)

/-- C10: in every reachable session state, a `file_id` key of
`uploaded_files` is never rebound — whatever trace extends the session,
the key still maps to the same stored file, so the file-id-keyed
extractors (which read the bytes from this map) see the same bytes for
that id and their cached results stay consistent with the stored
file. -/
theorem uploaded_files_never_rebound (events more : List Event) (fid : Nat)
    (f : UploadedFile)
    (h : (run initialState events).uploaded_files.lookup fid = some f) :
    (run initialState (events ++ more)).uploaded_files.lookup fid = some f ∧
    (∀ fitz_open : Bytes → Option PDFDoc,
       extract_text_from_pdf fitz_open
           (run initialState (events ++ more)).uploaded_files fid
         = extract_text_from_pdf fitz_open
             (run initialState events).uploaded_files fid ∧
       extract_images_from_pdf fitz_open
           (run initialState (events ++ more)).uploaded_files fid
         = extract_images_from_pdf fitz_open
             (run initialState events).uploaded_files fid) := by
  have hmono : (run initialState (events ++ more)).uploaded_files.lookup fid
      = some f := by
    unfold run
    rw [List.foldl_append]
    exact run_preserves_lookup more _ fid f h
  refine ⟨hmono, fun fitz_open => ⟨?_, ?_⟩⟩
  · simp only [extract_text_from_pdf, hmono, h]
  · simp only [extract_images_from_pdf, hmono, h]

/-- Witness for C10 at concrete inputs: file A's binding survives the
later upload of file B. -/
theorem uploaded_files_never_rebound_witness :
    (run initialState [Event.upload fileA]).uploaded_files.lookup fileA.file_id
      = some fileA ∧
    (run initialState ([Event.upload fileA] ++ [Event.upload fileB])).uploaded_files.lookup
        fileA.file_id = some fileA :=
  ⟨rfl,
   (uploaded_files_never_rebound [Event.upload fileA] [Event.upload fileB]
     fileA.file_id fileA rfl).1⟩

/-! Vision-client theorems. -/

/-- Counterexample to C6 as stated: on bytes the decoder rejects,
`get_gemini_vision_analysis` does not return an error string — the
`Image.open` call sits outside the `try` block, so the decode failure
propagates as a raised exception out of the client. -/
theorem vision_decode_failure_escapes :
    get_gemini_vision_analysis pilFail genOk [0]
      = Except.error "cannot identify image file" ∧
    raisesException (get_gemini_vision_analysis pilFail genOk [0]) = true :=
  ⟨rfl, rfl⟩

/-- C6 (amended): a remote API failure is caught inside the client and
yields an error string as the return value; an image-decode failure
instead raises out of the client, and it is the dispatch collection
loop that converts the escaped exception into an error string in that
image's slot, so the batch still completes. -/
theorem vision_failure_handling (image_open : Bytes → Except String PILImage)
    (generate_content : PILImage → Except String String) (image_bytes : Bytes) :
    (∀ (img : PILImage) (e : String), image_open image_bytes = .ok img →
       generate_content img = .error e →
       get_gemini_vision_analysis image_open generate_content image_bytes
         = .ok (visionCollectError e)) ∧
    (∀ e : String, image_open image_bytes = .error e →
       get_gemini_vision_analysis image_open generate_content image_bytes
           = .error e ∧
       slotValue (get_gemini_vision_analysis image_open generate_content)
           image_bytes = visionCollectError e) := by
  constructor
  · intro img e hop hgen
    simp [get_gemini_vision_analysis, hop, hgen, visionCollectError]
  · intro e hop
    constructor
    · simp [get_gemini_vision_analysis, hop]
    · simp [slotValue, get_gemini_vision_analysis, hop]

/-- Witness for the amended C6 at concrete inputs: an API failure is
returned as an error string, while a decode failure escapes the client
and only the collection loop's slot conversion turns it into an error
string. -/
theorem vision_failure_handling_witness :
    (pilOk [3] = .ok ⟨[3]⟩ ∧ genFail ⟨[3]⟩ = .error "quota exceeded" ∧
     get_gemini_vision_analysis pilOk genFail [3]
       = .ok (visionCollectError "quota exceeded")) ∧
    (pilFail [3] = .error "cannot identify image file" ∧
     get_gemini_vision_analysis pilFail genOk [3]
         = .error "cannot identify image file" ∧
     slotValue (get_gemini_vision_analysis pilFail genOk) [3]
       = visionCollectError "cannot identify image file") :=
  ⟨⟨rfl, rfl,
    (vision_failure_handling pilOk genFail [3]).1 ⟨[3]⟩ "quota exceeded" rfl rfl⟩,
   ⟨rfl,
    ((vision_failure_handling pilFail genOk [3]).2 "cannot identify image file"
      rfl).1,
    ((vision_failure_handling pilFail genOk [3]).2 "cannot identify image file"
      rfl).2⟩⟩

/-! Gallery theorem. -/

/-- C9: whenever analysis results are present, the gallery header
reports the full extracted-image count while the rendered entries are
the zip of images with stored analyses, so exactly
`min images.length analyses.length` entries are shown — a stored
analysis list shorter than the image list leaves the trailing images
unrendered. -/
theorem gallery_renders_zip_min (extracted_images : List Bytes)
    (summary : String) (image_analyses : List (Option String)) :
    ∃ v : GalleryView,
      render_gallery extracted_images (.results summary image_analyses) = some v ∧
      v.header_count = extracted_images.length ∧
      v.entries = extracted_images.zip image_analyses ∧
      v.entries.length = min extracted_images.length image_analyses.length := by
  refine ⟨_, rfl, rfl, rfl, ?_⟩
  simp [List.length_zip]

end Summize
